import Mathlib

/-!
Shallow embedding of the substrate quiz pallet
(src/pallets/template/src/lib.rs) and verification of the claims about it.

Accounts and hashes are modelled as naturals.  `T::Hashing::hash_of` on a
`u64` is an opaque collision-resistant hash; it is modelled by an injective
function (the identity), which is faithful for every property below because
the pallet only ever compares hashes for equality and uses them as map keys,
and quiz ids and deletion-bucket ids live in disjoint storage maps.

`u8` arithmetic is modelled on `Nat` with an explicit `% 256` wrap at the
two operations that can overflow under release-build wrapping semantics:
the gate subtraction `quiz.rating - 1` in `attempt_quiz` and the blend
`user_rating * 5 + current_score` in `update_rating`.  `u8` arguments of
dispatchables are reduced `% 256` at the boundary, mirroring their type.
-/

namespace SubstrateQuiz

abbrev AccountId := Nat

/-- Models `T::Hashing::hash_of` on a `u64` (opaque, collision-resistant,
hence injective; identity is a faithful such model here). -/
def hash_of (n : Nat) : Nat := n

/-- Struct for Question: a statement and four option byte strings. -/
structure Question where
  statement : List Nat
  option1 : List Nat
  option2 : List Nat
  option3 : List Nat
  option4 : List Nat
deriving DecidableEq

/-- Struct for Solution of a quiz: five answers, each a `u8`. -/
structure Solution where
  answer1 : Nat
  answer2 : Nat
  answer3 : Nat
  answer4 : Nat
  answer5 : Nat
deriving DecidableEq

/-- Struct for Quiz: owner, the five questions, and the rating gate (`u8`). -/
structure Quiz where
  owner : AccountId
  questions : List Question
  rating : Nat
deriving DecidableEq

/-- The pallet's error enum. -/
inductive Error where
  | InvalidOptionProvided
  | QuizDoesNotExist
  | UserRatingNotFound
  | UserRatingTooLow
  | OwnerCannotAttemptQuiz
  | NotTheQuizOwner
  | CannotDeleteQuiz
  | InsufficientBalance
deriving DecidableEq

/-- The pallet's event enum. -/
inductive Event where
  | QuizCreated (quizId : Nat) (account : AccountId) (rating : Nat)
  | QuizScore (quizId : Nat) (account : AccountId) (score : Nat)
  | QuizDeleted (blockNumber : Nat)
deriving DecidableEq

/-- Insert into a `StorageMap` keyed by a hash. -/
def mapInsert {α : Type} (m : Nat → Option α) (k : Nat) (v : α) : Nat → Option α :=
  fun x => if x = k then some v else m x

/-- Remove from a `StorageMap` keyed by a hash. -/
def mapRemove {α : Type} (m : Nat → Option α) (k : Nat) : Nat → Option α :=
  fun x => if x = k then none else m x

/-- The pallet's storage, together with the external collaborators that the
spec treats as part of the observable state: the balances ledger (the
external `Currency`, with its existential deposit for the keep-alive rule)
and the list of deposited events. `UserRating` and `QuizToDelete` are
`ValueQuery` maps (defaults 0 and `[]`), so they are modelled as total
functions. -/
structure State where
  quizzes : Nat → Option Quiz
  solutions : Nat → Option Solution
  userRating : AccountId → Nat
  quizCnt : Nat
  quizToDelete : Nat → List Nat
  balances : AccountId → Nat
  existentialDeposit : Nat
  events : List Event

/-- Models `Self::deposit_event`. -/
def deposit_event (st : State) (e : Event) : State :=
  { st with events := st.events ++ [e] }

/-- `find_score`: one point per answer slot on which the submission equals
the stored solution (src lines 225-251). -/
def find_score (submission : Solution) (solution : Solution) : Nat :=
  let score : Nat := 0
  let score := if submission.answer1 = solution.answer1 then score + 1 else score
  let score := if submission.answer2 = solution.answer2 then score + 1 else score
  let score := if submission.answer3 = solution.answer3 then score + 1 else score
  let score := if submission.answer4 = solution.answer4 then score + 1 else score
  let score := if submission.answer5 = solution.answer5 then score + 1 else score
  score

/-- `update_rating` (src lines 254-267): `total` is 1 when the prior rating
is 0 and 6 otherwise; the blend `user_rating * 5 + current_score` is `u8`
arithmetic, hence the `% 256`. -/
def update_rating (st : State) (user : AccountId) (current_score : Nat)
    (user_rating : Nat) : State :=
  let total : Nat :=
    match user_rating with
    | 0 => 1
    | _ => 6
  let user_rating := (user_rating * 5 + current_score) % 256 / total
  { st with userRating := fun a => if a = user then user_rating else st.userRating a }

/-- `check_and_delete_quiz`'s for-loop over the bucket contents: each listed
hash is removed from `Quizzes` (only from `Quizzes`: `Solutions` is not
touched) and one `QuizDeleted` event is deposited. -/
def delete_loop (block : Nat) (st : State) : List Nat → State
  | [] => st
  | h :: rest =>
      delete_loop block
        (deposit_event { st with quizzes := mapRemove st.quizzes h }
          (Event.QuizDeleted block)) rest

/-- `check_and_delete_quiz` (src lines 269-282): reads the bucket for the
current block's hash and runs the removal loop.  Note the bucket itself is
read with the `ValueQuery` getter and never cleared. -/
def check_and_delete_quiz (st : State) (block_number : Nat) : State :=
  let block := block_number
  let block_hash := hash_of block
  let delete_vec := st.quizToDelete block_hash
  delete_loop block st delete_vec

/-- `add_quiz_to_be_deleted` (src lines 284-299): appends the quiz hash to
the deletion bucket keyed by the hash of `10 + current block` (the test
configuration's delay).  The `try_mutate` closure always returns `Ok`, so
the function never fails and is modelled as total. -/
def add_quiz_to_be_deleted (st : State) (the_end_block_number : Nat)
    (quiz_number : Nat) : State :=
  let the_end_block_number := 10 + the_end_block_number
  let delete_id := hash_of the_end_block_number
  let quiz_id := hash_of quiz_number
  { st with
    quizToDelete := fun k =>
      if k = delete_id then st.quizToDelete k ++ [quiz_id] else st.quizToDelete k }

/-- Modelled from the spec: the external `Currency::transfer` with
`ExistenceRequirement::KeepAlive` (the `Ledger` collaborator of spec §6,
not part of src/).  It fails when the sender lacks the funds or when the
transfer would drop the sender below the existential deposit (keep-alive),
and otherwise moves the amount. -/
def currency_transfer (st : State) (sender receiver : AccountId) (amount : Nat) :
    Option State :=
  if st.balances sender < amount then none
  else if st.balances sender - amount < st.existentialDeposit then none
  else
    some { st with
      balances := fun a =>
        if a = sender then st.balances a - amount
        else if a = receiver then st.balances a + amount
        else st.balances a }

/-- `transfer_tokens_to_owner` (src lines 301-314): an explicit
free-balance check, then the currency transfer with any transfer error
mapped to `InsufficientBalance`. -/
def transfer_tokens_to_owner (st : State) (sender receiver : AccountId)
    (amount : Nat) : Except Error State :=
  let free_balance := st.balances sender
  if free_balance < amount then Except.error Error.InsufficientBalance
  else
    match currency_transfer st sender receiver amount with
    | none => Except.error Error.InsufficientBalance
    | some st1 => Except.ok st1

/-- `add_quiz` (src lines 132-167).  `now` is the ambient
`frame_system` block number and `sender` the resolved signed origin.  The
first four solution slots are validated to lie in `[1,4]`; `answer5` is
not validated.  `rating` is a `u8` argument, hence the boundary `% 256`. -/
def add_quiz (now : Nat) (st : State) (sender : AccountId)
    (question1 question2 question3 question4 question5 : Question)
    (solution : Solution) (rating : Nat) : Except Error State :=
  let rating := rating % 256
  if solution.answer1 > 0 ∧ solution.answer2 > 0 ∧ solution.answer3 > 0 ∧
      solution.answer4 > 0 then
    if solution.answer1 ≤ 4 ∧ solution.answer2 ≤ 4 ∧ solution.answer3 ≤ 4 ∧
        solution.answer4 ≤ 4 then
      let questions := [question1, question2, question3, question4, question5]
      let quiz : Quiz := { owner := sender, questions := questions, rating := rating }
      let quiz_count := st.quizCnt + 1
      let quiz_id := hash_of quiz_count
      let st := { st with
        quizzes := mapInsert st.quizzes quiz_id quiz,
        solutions := mapInsert st.solutions quiz_id solution,
        quizCnt := quiz_count }
      let st := add_quiz_to_be_deleted st now quiz_count
      let st := deposit_event st (Event.QuizCreated quiz_count sender rating)
      Except.ok st
    else Except.error Error.InvalidOptionProvided
  else Except.error Error.InvalidOptionProvided

/-- `attempt_quiz` (src lines 169-202).  The rating gate is the source's
`user_rating >= quiz.rating - 1` where the subtraction is wrapping `u8`
subtraction: `(quiz.rating + 255) % 256`, which is `quiz.rating - 1` for a
positive gate and 255 when the gate is 0.  `tpq` is the
`TokensPerQuestion` runtime constant. -/
def attempt_quiz (tpq : Nat) (st : State) (sender : AccountId) (quiz_count : Nat)
    (submission : Solution) : Except Error State :=
  let quiz_id := hash_of quiz_count
  match st.quizzes quiz_id with
  | none => Except.error Error.QuizDoesNotExist
  | some quiz =>
    if sender = quiz.owner then Except.error Error.OwnerCannotAttemptQuiz
    else
      let user_rating := st.userRating sender
      if user_rating ≥ (quiz.rating + 255) % 256 then
        match st.solutions quiz_id with
        | none => Except.error Error.QuizDoesNotExist
        | some solution =>
          let score := find_score submission solution
          let user_rating := st.userRating sender
          let token_to_pay := (5 - score) * tpq
          match transfer_tokens_to_owner st sender quiz.owner token_to_pay with
          | Except.error e => Except.error e
          | Except.ok st1 =>
            let st2 := update_rating st1 sender score user_rating
            Except.ok (deposit_event st2 (Event.QuizScore quiz_count sender score))
      else Except.error Error.UserRatingTooLow

/-- `delete_quiz` (src lines 204-219): owner-only; removes the quiz record
from `Quizzes` (and — faithfully to the source — does NOT remove the
paired `Solutions` entry). -/
def delete_quiz (st : State) (sender : AccountId) (quiz_count : Nat) :
    Except Error State :=
  let quiz_id := hash_of quiz_count
  match st.quizzes quiz_id with
  | none => Except.error Error.QuizDoesNotExist
  | some quiz =>
    if sender = quiz.owner then
      Except.ok { st with quizzes := mapRemove st.quizzes quiz_id }
    else Except.error Error.NotTheQuizOwner

/-- The `on_initialize_hook` hook (src lines 120-127): runs the deletion pass for
the current block. -/
def on_initialize_hook (st : State) (now : Nat) : State :=
  check_and_delete_quiz st now

/-- One serialized command against the pallet state: the three dispatchables
plus the per-block hook. -/
inductive Op where
  | addQuiz (now : Nat) (sender : AccountId)
      (q1 q2 q3 q4 q5 : Question) (solution : Solution) (rating : Nat)
  | attemptQuiz (tpq : Nat) (sender : AccountId) (quiz_count : Nat)
      (submission : Solution)
  | deleteQuiz (sender : AccountId) (quiz_count : Nat)
  | tick (now : Nat)

/-- Substrate dispatch semantics: a failed extrinsic is rolled back, leaving
the state unchanged; the hook is infallible. -/
def step (st : State) (op : Op) : State :=
  match op with
  | Op.addQuiz now sender q1 q2 q3 q4 q5 sol rating =>
    match add_quiz now st sender q1 q2 q3 q4 q5 sol rating with
    | Except.ok st1 => st1
    | Except.error _ => st
  | Op.attemptQuiz tpq sender qc sub =>
    match attempt_quiz tpq st sender qc sub with
    | Except.ok st1 => st1
    | Except.error _ => st
  | Op.deleteQuiz sender qc =>
    match delete_quiz st sender qc with
    | Except.ok st1 => st1
    | Except.error _ => st
  | Op.tick now => on_initialize_hook st now

/-- Genesis state: empty storage, `ValueQuery` defaults, arbitrary genesis
balances and existential deposit. -/
def initState (bal : AccountId → Nat) (ed : Nat) : State :=
  { quizzes := fun _ => none
    solutions := fun _ => none
    userRating := fun _ => 0
    quizCnt := 0
    quizToDelete := fun _ => []
    balances := bal
    existentialDeposit := ed
    events := [] }

/-- States reachable through the public dispatchables and the hook. -/
inductive Reachable : State → Prop where
  | init (bal : AccountId → Nat) (ed : Nat) : Reachable (initState bal ed)
  | step (st : State) (op : Op) : Reachable st → Reachable (step st op)

/-- Run the on-block hook for `n` consecutive blocks starting at block `t`. -/
def runTicks (st : State) (t : Nat) : Nat → State
  | 0 => st
  | Nat.succ n => runTicks (on_initialize_hook st t) (t + 1) n

/-- The count of answer slots on which two solutions agree — the spec §4.5
wording of the scoring rule, stated independently of `find_score`. -/
def agreeCount (a b : Solution) : Nat :=
  (if a.answer1 = b.answer1 then 1 else 0) +
  (if a.answer2 = b.answer2 then 1 else 0) +
  (if a.answer3 = b.answer3 then 1 else 0) +
  (if a.answer4 = b.answer4 then 1 else 0) +
  (if a.answer5 = b.answer5 then 1 else 0)

/-- The count of answer slots on which two solutions differ. -/
def diffCount (a b : Solution) : Nat :=
  (if a.answer1 = b.answer1 then 0 else 1) +
  (if a.answer2 = b.answer2 then 0 else 1) +
  (if a.answer3 = b.answer3 then 0 else 1) +
  (if a.answer4 = b.answer4 then 0 else 1) +
  (if a.answer5 = b.answer5 then 0 else 1)

/-- A placeholder question used for concrete evaluations. -/
def q0 : Question := { statement := [], option1 := [], option2 := [], option3 := [], option4 := [] }

/-- The all-ones solution (valid). -/
def sol1 : Solution := { answer1 := 1, answer2 := 1, answer3 := 1, answer4 := 1, answer5 := 1 }

/-- The all-twos solution (valid, disjoint from `sol1` in every slot). -/
def sub2 : Solution := { answer1 := 2, answer2 := 2, answer3 := 2, answer4 := 2, answer5 := 2 }

/-! ## Helper lemmas -/

theorem find_score_eq_agreeCount (a b : Solution) : find_score a b = agreeCount a b := by
  simp only [find_score, agreeCount]
  split_ifs <;> omega

theorem find_score_le_five (a b : Solution) : find_score a b ≤ 5 := by
  simp only [find_score]
  split_ifs <;> omega

theorem ite_eq_comm_nat (x y u v : Nat) :
    (if x = y then u else v) = (if y = x then u else v) := by
  by_cases h : x = y
  · rw [if_pos h, if_pos h.symm]
  · rw [if_neg h, if_neg (fun hh => h hh.symm)]

theorem agreeCount_add_diffCount (a b : Solution) :
    agreeCount a b + diffCount a b = 5 := by
  simp only [agreeCount, diffCount]
  split_ifs <;> omega

theorem agreeCount_comm (a b : Solution) : agreeCount a b = agreeCount b a := by
  simp only [agreeCount]
  rw [ite_eq_comm_nat a.answer1 b.answer1, ite_eq_comm_nat a.answer2 b.answer2,
    ite_eq_comm_nat a.answer3 b.answer3, ite_eq_comm_nat a.answer4 b.answer4,
    ite_eq_comm_nat a.answer5 b.answer5]

theorem delete_loop_quizToDelete (block : Nat) (l : List Nat) :
    ∀ st : State, (delete_loop block st l).quizToDelete = st.quizToDelete := by
  induction l with
  | nil => intro st; rfl
  | cons h rest ih => intro st; exact ih _

theorem delete_loop_userRating (block : Nat) (l : List Nat) :
    ∀ st : State, (delete_loop block st l).userRating = st.userRating := by
  induction l with
  | nil => intro st; rfl
  | cons h rest ih => intro st; exact ih _

theorem delete_loop_solutions (block : Nat) (l : List Nat) :
    ∀ st : State, (delete_loop block st l).solutions = st.solutions := by
  induction l with
  | nil => intro st; rfl
  | cons h rest ih => intro st; exact ih _

theorem delete_loop_quizzes (block : Nat) (l : List Nat) :
    ∀ (st : State) (k : Nat),
      (delete_loop block st l).quizzes k = if k ∈ l then none else st.quizzes k := by
  induction l with
  | nil => intro st k; simp [delete_loop]
  | cons h rest ih =>
    intro st k
    show (delete_loop block
        (deposit_event { st with quizzes := mapRemove st.quizzes h }
          (Event.QuizDeleted block)) rest).quizzes k = _
    rw [ih]
    by_cases hk : k ∈ rest
    · simp [hk]
    · by_cases hkh : k = h
      · simp [hk, hkh, deposit_event, mapRemove]
      · simp [hk, hkh, deposit_event, mapRemove]

theorem check_and_delete_quizToDelete (st : State) (t : Nat) :
    (check_and_delete_quiz st t).quizToDelete = st.quizToDelete :=
  delete_loop_quizToDelete t _ st

theorem check_and_delete_userRating (st : State) (t : Nat) :
    (check_and_delete_quiz st t).userRating = st.userRating :=
  delete_loop_userRating t _ st

theorem check_and_delete_solutions (st : State) (t : Nat) :
    (check_and_delete_quiz st t).solutions = st.solutions :=
  delete_loop_solutions t _ st

theorem check_and_delete_quizzes (st : State) (t : Nat) (k : Nat) :
    (check_and_delete_quiz st t).quizzes k =
      if k ∈ st.quizToDelete (hash_of t) then none else st.quizzes k :=
  delete_loop_quizzes t _ st k

theorem runTicks_quizToDelete (n : Nat) :
    ∀ (st : State) (t : Nat), (runTicks st t n).quizToDelete = st.quizToDelete := by
  induction n with
  | zero => intro st t; rfl
  | succ n ih =>
    intro st t
    show (runTicks (on_initialize_hook st t) (t + 1) n).quizToDelete = st.quizToDelete
    rw [ih]
    exact check_and_delete_quizToDelete st t

theorem runTicks_quizzes (n : Nat) :
    ∀ (st : State) (t : Nat) (k : Nat),
      (∀ j, j < n → k ∉ st.quizToDelete (hash_of (t + j))) →
      (runTicks st t n).quizzes k = st.quizzes k := by
  induction n with
  | zero => intro st t k _; rfl
  | succ n ih =>
    intro st t k hk
    show (runTicks (on_initialize_hook st t) (t + 1) n).quizzes k = st.quizzes k
    rw [ih (on_initialize_hook st t) (t + 1) k ?_]
    · show (check_and_delete_quiz st t).quizzes k = st.quizzes k
      rw [check_and_delete_quizzes]
      have h0 : k ∉ st.quizToDelete (hash_of t) := by
        have := hk 0 (Nat.succ_pos n)
        simpa using this
      rw [if_neg h0]
    · intro j hj
      show k ∉ (check_and_delete_quiz st t).quizToDelete (hash_of (t + 1 + j))
      rw [check_and_delete_quizToDelete]
      have harr : t + 1 + j = t + (j + 1) := by omega
      rw [harr]
      exact hk (j + 1) (by omega)

theorem runTicks_snoc (n : Nat) :
    ∀ (st : State) (t : Nat),
      runTicks st t (n + 1) = on_initialize_hook (runTicks st t n) (t + n) := by
  induction n with
  | zero =>
    intro st t
    show on_initialize_hook st t = on_initialize_hook st (t + 0)
    rw [Nat.add_zero]
  | succ n ih =>
    intro st t
    show runTicks (on_initialize_hook st t) (t + 1) (n + 1) =
      on_initialize_hook (runTicks (on_initialize_hook st t) (t + 1) n) (t + (n + 1))
    rw [ih]
    have harr : t + 1 + n = t + (n + 1) := by omega
    rw [harr]

theorem transfer_error_insufficient (st : State) (sender receiver : AccountId)
    (amount : Nat) (e : Error)
    (h : transfer_tokens_to_owner st sender receiver amount = Except.error e) :
    e = Error.InsufficientBalance := by
  simp only [transfer_tokens_to_owner, currency_transfer] at h
  split at h
  · cases h; rfl
  · split at h
    · cases h; rfl
    · exact Except.noConfusion h

theorem transfer_ok_fields (st : State) (sender receiver : AccountId)
    (amount : Nat) (st1 : State)
    (h : transfer_tokens_to_owner st sender receiver amount = Except.ok st1) :
    st1.userRating = st.userRating ∧ st1.quizzes = st.quizzes ∧
      st1.solutions = st.solutions ∧ st1.quizToDelete = st.quizToDelete ∧
      st1.events = st.events := by
  simp only [transfer_tokens_to_owner, currency_transfer] at h
  split at h
  · exact Except.noConfusion h
  · split at h
    · exact Except.noConfusion h
    · rename_i heq
      cases h
      split at heq
      · exact Option.noConfusion heq
      · cases heq; exact ⟨rfl, rfl, rfl, rfl, rfl⟩

theorem add_quiz_ok_userRating (now : Nat) (st : State) (sender : AccountId)
    (q1 q2 q3 q4 q5 : Question) (sol : Solution) (rating : Nat) (st1 : State)
    (h : add_quiz now st sender q1 q2 q3 q4 q5 sol rating = Except.ok st1) :
    st1.userRating = st.userRating := by
  simp only [add_quiz] at h
  split at h
  · split at h
    · cases h; rfl
    · exact Except.noConfusion h
  · exact Except.noConfusion h

theorem delete_quiz_ok_fields (st : State) (sender : AccountId) (qc : Nat) (st1 : State)
    (h : delete_quiz st sender qc = Except.ok st1) :
    st1.userRating = st.userRating ∧ st1.solutions = st.solutions := by
  simp only [delete_quiz] at h
  split at h
  · exact Except.noConfusion h
  · split at h
    · cases h; exact ⟨rfl, rfl⟩
    · exact Except.noConfusion h

theorem update_rating_value (st : State) (user : AccountId) (s r : Nat) (a : AccountId) :
    (update_rating st user s r).userRating a =
      if a = user then (r * 5 + s) % 256 / (if r = 0 then 1 else 6)
      else st.userRating a := by
  cases r <;> rfl

theorem update_rating_result_le (s r : Nat) (hs : s ≤ 5) (hr : r ≤ 5) :
    (r * 5 + s) % 256 / (if r = 0 then 1 else 6) ≤ 5 := by
  have hlt : r * 5 + s < 256 := by omega
  rw [Nat.mod_eq_of_lt hlt]
  by_cases h0 : r = 0
  · subst h0; simpa using hs
  · rw [if_neg h0]
    have h30 : r * 5 + s ≤ 30 := by omega
    have hd : (r * 5 + s) / 6 ≤ 30 / 6 := Nat.div_le_div_right h30
    simpa using hd

theorem attempt_quiz_ok_shape (tpq : Nat) (st : State) (sender : AccountId)
    (qc : Nat) (sub : Solution) (st2 : State)
    (h : attempt_quiz tpq st sender qc sub = Except.ok st2) :
    ∃ (quiz : Quiz) (sol : Solution) (st1 : State),
      st.quizzes (hash_of qc) = some quiz ∧
      transfer_tokens_to_owner st sender quiz.owner
        ((5 - find_score sub sol) * tpq) = Except.ok st1 ∧
      st2 = deposit_event
        (update_rating st1 sender (find_score sub sol) (st.userRating sender))
        (Event.QuizScore qc sender (find_score sub sol)) := by
  simp only [attempt_quiz] at h
  split at h
  · exact Except.noConfusion h
  · rename_i quiz heq
    split at h
    · exact Except.noConfusion h
    · split at h
      · split at h
        · exact Except.noConfusion h
        · rename_i sol heqs
          split at h
          · exact Except.noConfusion h
          · rename_i st1 heqt
            cases h
            exact ⟨quiz, sol, st1, heq, heqt, rfl⟩
      · exact Except.noConfusion h

theorem step_userRating_le (st : State) (op : Op) (ih : ∀ a, st.userRating a ≤ 5) :
    ∀ a, (step st op).userRating a ≤ 5 := by
  intro a
  cases op with
  | addQuiz now sender q1 q2 q3 q4 q5 sol rating =>
    simp only [step]
    rcases hq : add_quiz now st sender q1 q2 q3 q4 q5 sol rating with e | st1
    · exact ih a
    · rw [add_quiz_ok_userRating now st sender q1 q2 q3 q4 q5 sol rating st1 hq]
      exact ih a
  | attemptQuiz tpq sender qc sub =>
    simp only [step]
    rcases hq : attempt_quiz tpq st sender qc sub with e | st2
    · exact ih a
    · obtain ⟨quiz, sol, st1, hquiz, htr, hshape⟩ :=
        attempt_quiz_ok_shape tpq st sender qc sub st2 hq
      subst hshape
      show (update_rating st1 sender (find_score sub sol) (st.userRating sender)).userRating a ≤ 5
      rw [update_rating_value]
      by_cases ha : a = sender
      · rw [if_pos ha]
        exact update_rating_result_le (find_score sub sol) (st.userRating sender)
          (find_score_le_five sub sol) (ih sender)
      · rw [if_neg ha]
        rw [(transfer_ok_fields st sender quiz.owner _ st1 htr).1]
        exact ih a
  | deleteQuiz sender qc =>
    simp only [step]
    rcases hq : delete_quiz st sender qc with e | st1
    · exact ih a
    · rw [(delete_quiz_ok_fields st sender qc st1 hq).1]
      exact ih a
  | tick now =>
    show (check_and_delete_quiz st now).userRating a ≤ 5
    rw [check_and_delete_userRating]
    exact ih a

theorem reachable_userRating_le (st : State) (h : Reachable st) :
    ∀ a, st.userRating a ≤ 5 := by
  induction h with
  | init bal ed => intro a; exact Nat.zero_le 5
  | step st1 op hr ih => exact step_userRating_le st1 op ih

/-! ## Claims -/

/-- C1: the claim states that `attemptQuiz` fails `RatingTooLow` iff
`r < g - 1` with `g = 0` treated as gate-satisfied for every rating (the
subtraction guarded against unsigned underflow).  The code performs the
unguarded `u8` subtraction `quiz.rating - 1`, which for a gate of 0 wraps
to 255, so a non-owner with the default rating 0 attempting an existing
gate-0 quiz is rejected with `UserRatingTooLow` instead of being admitted.
This theorem evaluates the code at that failing input. -/
theorem c1_gate_zero_failing_eval :
    attempt_quiz 1
      (step (initState (fun _ => 100) 0)
        (Op.addQuiz 100 5 q0 q0 q0 q0 q0 sol1 0)) 2 1 sol1 =
      Except.error Error.UserRatingTooLow := rfl

/-- C2: the claim states that deletion removes both the Quiz and its
Solution, owner-initiated or scheduler-initiated.  The code removes only
the `Quizzes` entry on both paths and leaves the `Solutions` entry behind.
Evaluated here: after creating quiz 1 (owner 5, solution `sol1`) at block
100, an owner `delete_quiz` leaves the Solution in the store without its
Quiz, and so does the scheduler pass `check_and_delete_quiz` at block 110. -/
theorem c2_delete_leaves_solution_eval :
    ((step (step (initState (fun _ => 0) 0)
        (Op.addQuiz 100 5 q0 q0 q0 q0 q0 sol1 2)) (Op.deleteQuiz 5 1)).quizzes
        (hash_of 1) = none ∧
      (step (step (initState (fun _ => 0) 0)
        (Op.addQuiz 100 5 q0 q0 q0 q0 q0 sol1 2)) (Op.deleteQuiz 5 1)).solutions
        (hash_of 1) = some sol1) ∧
    ((check_and_delete_quiz (step (initState (fun _ => 0) 0)
        (Op.addQuiz 100 5 q0 q0 q0 q0 q0 sol1 2)) 110).quizzes
        (hash_of 1) = none ∧
      (check_and_delete_quiz (step (initState (fun _ => 0) 0)
        (Op.addQuiz 100 5 q0 q0 q0 q0 q0 sol1 2)) 110).solutions
        (hash_of 1) = some sol1) :=
  ⟨⟨rfl, rfl⟩, ⟨rfl, rfl⟩⟩

/-- C3: whenever an `attempt_quiz` call reaches the value transfer and the
transfer is rejected, the call fails with `InsufficientBalance` and the
dispatched command leaves the state unchanged (in particular the rating
ledger is untouched): the transfer is attempted and confirmed before the
rating mutation. -/
theorem c3_transfer_failure_aborts (tpq : Nat) (st : State) (sender : AccountId)
    (qc : Nat) (sub : Solution) (quiz : Quiz) (sol : Solution) (e : Error)
    (h1 : st.quizzes (hash_of qc) = some quiz)
    (h2 : ¬ sender = quiz.owner)
    (h3 : st.userRating sender ≥ (quiz.rating + 255) % 256)
    (h4 : st.solutions (hash_of qc) = some sol)
    (h5 : transfer_tokens_to_owner st sender quiz.owner
        ((5 - find_score sub sol) * tpq) = Except.error e) :
    attempt_quiz tpq st sender qc sub = Except.error Error.InsufficientBalance ∧
    step st (Op.attemptQuiz tpq sender qc sub) = st := by
  have he : e = Error.InsufficientBalance :=
    transfer_error_insufficient st sender quiz.owner _ e h5
  subst he
  have hcall : attempt_quiz tpq st sender qc sub =
      Except.error Error.InsufficientBalance := by
    simp only [attempt_quiz, h1]
    rw [if_neg h2, if_pos h3]
    simp only [h4, h5]
  refine ⟨hcall, ?_⟩
  simp only [step, hcall]

/-- C3 witness: a concrete call where the attempter holds zero balance and
the attempt is rejected with `InsufficientBalance`, leaving the state
unchanged. -/
theorem c3_transfer_failure_aborts_witness :
    attempt_quiz 1 (step (initState (fun _ => 0) 0)
        (Op.addQuiz 100 5 q0 q0 q0 q0 q0 sol1 1)) 2 1 sub2 =
      Except.error Error.InsufficientBalance ∧
    step (step (initState (fun _ => 0) 0)
        (Op.addQuiz 100 5 q0 q0 q0 q0 q0 sol1 1)) (Op.attemptQuiz 1 2 1 sub2) =
      step (initState (fun _ => 0) 0) (Op.addQuiz 100 5 q0 q0 q0 q0 q0 sol1 1) :=
  c3_transfer_failure_aborts 1
    (step (initState (fun _ => 0) 0) (Op.addQuiz 100 5 q0 q0 q0 q0 q0 sol1 1))
    2 1 sub2 { owner := 5, questions := [q0, q0, q0, q0, q0], rating := 1 } sol1
    Error.InsufficientBalance rfl (by decide) (by decide) rfl rfl

/-- C4 counterexample: the claim states that firing the deletion bucket for
a tick clears the bucket.  Concretely: quiz 1 is created at block 100, so
the bucket for block 110 holds its hash; after running the deletion pass at
block 110 the bucket still holds that hash — it is not cleared. -/
theorem c4_bucket_not_cleared_cex :
    (check_and_delete_quiz (step (initState (fun _ => 0) 0)
        (Op.addQuiz 100 5 q0 q0 q0 q0 q0 sol1 2)) 110).quizToDelete
      (hash_of 110) = [hash_of 1] ∧
    ([hash_of 1] : List Nat) ≠ [] :=
  ⟨rfl, by decide⟩

/-- C4 amended: the deletion pass removes every quiz id listed in the
bucket from the quiz store but never clears the bucket itself; running the
pass a second time at the same tick re-reads the same bucket contents yet
performs zero further deletions from the quiz store, because removing an
already-removed id is an idempotent no-op. -/
theorem c4_second_pass_deletes_nothing (st : State) (t : Nat) :
    (check_and_delete_quiz st t).quizToDelete = st.quizToDelete ∧
    (check_and_delete_quiz (check_and_delete_quiz st t) t).quizzes =
      (check_and_delete_quiz st t).quizzes := by
  refine ⟨check_and_delete_quizToDelete st t, funext fun k => ?_⟩
  rw [check_and_delete_quizzes (check_and_delete_quiz st t) t k,
    check_and_delete_quizToDelete st t]
  by_cases hk : k ∈ st.quizToDelete (hash_of t)
  · rw [if_pos hk, check_and_delete_quizzes st t k, if_pos hk]
  · rw [if_neg hk]

/-- C5: `add_quiz` by a signed sender fails with the invalid-solution error
iff at least one of the first four solution slots lies outside `[1,4]`;
the fifth slot is not consulted by the validation, and once the first four
slots are in range the call always succeeds. -/
theorem c5_add_quiz_validation (now : Nat) (st : State) (sender : AccountId)
    (q1 q2 q3 q4 q5 : Question) (sol : Solution) (rating : Nat) :
    (add_quiz now st sender q1 q2 q3 q4 q5 sol rating =
        Except.error Error.InvalidOptionProvided ↔
      ¬ (1 ≤ sol.answer1 ∧ sol.answer1 ≤ 4 ∧ 1 ≤ sol.answer2 ∧ sol.answer2 ≤ 4 ∧
         1 ≤ sol.answer3 ∧ sol.answer3 ≤ 4 ∧ 1 ≤ sol.answer4 ∧ sol.answer4 ≤ 4)) ∧
    ((1 ≤ sol.answer1 ∧ sol.answer1 ≤ 4 ∧ 1 ≤ sol.answer2 ∧ sol.answer2 ≤ 4 ∧
      1 ≤ sol.answer3 ∧ sol.answer3 ≤ 4 ∧ 1 ≤ sol.answer4 ∧ sol.answer4 ≤ 4) →
      ∃ st1, add_quiz now st sender q1 q2 q3 q4 q5 sol rating = Except.ok st1) := by
  simp only [add_quiz]
  split_ifs with hpos hle
  · exact ⟨iff_of_false (fun h => h) (not_not_intro (by omega)), fun _ => ⟨_, rfl⟩⟩
  · exact ⟨iff_of_true rfl (by omega), fun hP => absurd hP (by omega)⟩
  · exact ⟨iff_of_true rfl (by omega), fun hP => absurd hP (by omega)⟩

/-- C5 witness: a solution whose first four slots are in range and whose
fifth slot is 0 (out of the documented `[1,4]` range) is accepted. -/
theorem c5_add_quiz_validation_witness :
    ∃ st1, add_quiz 0 (initState (fun _ => 0) 0) 7 q0 q0 q0 q0 q0
      { answer1 := 1, answer2 := 2, answer3 := 3, answer4 := 4, answer5 := 0 } 2 =
        Except.ok st1 :=
  (c5_add_quiz_validation 0 (initState (fun _ => 0) 0) 7 q0 q0 q0 q0 q0
    { answer1 := 1, answer2 := 2, answer3 := 3, answer4 := 4, answer5 := 0 } 2).2
    (by decide)

/-- C6: for every account (every reachable stored rating) and every score in
`[0,5]`, the rating update stores `(oldRating * 5 + score) / divisor` with
truncating division, `divisor = 1` when the prior rating is 0 and 6
otherwise; in particular a first score `s` from rating 0 yields exactly `s`,
and rating 3 followed by score 5 yields `(3*5+5)/6 = 3`.  (The `u8` blend
cannot wrap because reachable ratings stay in `[0,5]`.) -/
theorem c6_rating_update_formula :
    (∀ st : State, Reachable st → ∀ (user : AccountId) (s : Nat), s ≤ 5 →
      (update_rating st user s (st.userRating user)).userRating user =
        (st.userRating user * 5 + s) /
          (if st.userRating user = 0 then 1 else 6)) ∧
    (∀ (st : State) (user : AccountId) (s : Nat), s ≤ 5 →
      (update_rating st user s 0).userRating user = s) ∧
    (∀ (st : State) (user : AccountId),
      (update_rating st user 5 3).userRating user = 3) := by
  refine ⟨?_, ?_, ?_⟩
  · intro st hr user s hs
    have hle := reachable_userRating_le st hr user
    rw [update_rating_value, if_pos rfl, Nat.mod_eq_of_lt (by omega)]
  · intro st user s hs
    rw [update_rating_value, if_pos rfl,
      Nat.mod_eq_of_lt (show 0 * 5 + s < 256 by omega)]
    simp
  · intro st user
    rw [update_rating_value, if_pos rfl]
    decide

/-- C6 witness: the first score 3 recorded from the default rating 0 stores
rating exactly 3. -/
theorem c6_rating_update_formula_witness :
    (update_rating (initState (fun _ => 0) 0) 4 3 0).userRating 4 = 3 :=
  c6_rating_update_formula.2.1 (initState (fun _ => 0) 0) 4 3 (by decide)

/-- C7: a quiz created at block `now` is scheduled for deletion at
`now + 10` (the test-configuration delay) by appending its id to that
block's bucket; provided its id does not already sit in a bucket due in the
meantime, it is still stored after each of the next nine block hooks and is
gone from the store once the hook for block `now + 10` has run, with no
owner delete ever issued. -/
theorem c7_scheduled_deletion (now : Nat) (st : State) (sender : AccountId)
    (q1 q2 q3 q4 q5 : Question) (sol : Solution) (rating : Nat)
    (hval : (0 < sol.answer1 ∧ sol.answer1 ≤ 4) ∧ (0 < sol.answer2 ∧ sol.answer2 ≤ 4) ∧
      (0 < sol.answer3 ∧ sol.answer3 ≤ 4) ∧ (0 < sol.answer4 ∧ sol.answer4 ≤ 4))
    (hfresh : ∀ u, now < u → u < now + 10 →
      hash_of (st.quizCnt + 1) ∉ st.quizToDelete (hash_of u)) :
    hash_of (st.quizCnt + 1) ∈
      (step st (Op.addQuiz now sender q1 q2 q3 q4 q5 sol rating)).quizToDelete
        (hash_of (now + 10)) ∧
    (∀ k, k ≤ 9 →
      (runTicks (step st (Op.addQuiz now sender q1 q2 q3 q4 q5 sol rating))
          (now + 1) k).quizzes (hash_of (st.quizCnt + 1)) =
        some { owner := sender, questions := [q1, q2, q3, q4, q5],
               rating := rating % 256 }) ∧
    (runTicks (step st (Op.addQuiz now sender q1 q2 q3 q4 q5 sol rating))
        (now + 1) 10).quizzes (hash_of (st.quizCnt + 1)) = none := by
  obtain ⟨st1, hstep, hqd, hqz⟩ :
      ∃ st1, step st (Op.addQuiz now sender q1 q2 q3 q4 q5 sol rating) = st1 ∧
        (∀ key, st1.quizToDelete key =
          if key = hash_of (10 + now) then
            st.quizToDelete key ++ [hash_of (st.quizCnt + 1)]
          else st.quizToDelete key) ∧
        st1.quizzes = mapInsert st.quizzes (hash_of (st.quizCnt + 1))
          { owner := sender, questions := [q1, q2, q3, q4, q5],
            rating := rating % 256 } := by
    refine ⟨step st (Op.addQuiz now sender q1 q2 q3 q4 q5 sol rating), rfl, ?_, ?_⟩
    · intro key
      simp only [step, add_quiz]
      rw [if_pos ⟨hval.1.1, hval.2.1.1, hval.2.2.1.1, hval.2.2.2.1⟩,
        if_pos ⟨hval.1.2, hval.2.1.2, hval.2.2.1.2, hval.2.2.2.2⟩]
      rfl
    · simp only [step, add_quiz]
      rw [if_pos ⟨hval.1.1, hval.2.1.1, hval.2.2.1.1, hval.2.2.2.1⟩,
        if_pos ⟨hval.1.2, hval.2.1.2, hval.2.2.1.2, hval.2.2.2.2⟩]
      rfl
  rw [hstep]
  have hqid_val : st1.quizzes (hash_of (st.quizCnt + 1)) =
      some { owner := sender, questions := [q1, q2, q3, q4, q5],
             rating := rating % 256 } := by
    rw [hqz]; simp [mapInsert]
  have hfresh1 : ∀ j, j < 9 →
      hash_of (st.quizCnt + 1) ∉ st1.quizToDelete (hash_of (now + 1 + j)) := by
    intro j hj
    rw [hqd, if_neg (by simp only [hash_of]; omega)]
    exact hfresh (now + 1 + j) (by omega) (by omega)
  refine ⟨?_, ?_, ?_⟩
  · rw [hqd, if_pos (by simp only [hash_of]; omega)]
    exact List.mem_append_right _ (by simp)
  · intro k hk
    rw [runTicks_quizzes k st1 (now + 1) (hash_of (st.quizCnt + 1))
      (fun j hj => hfresh1 j (by omega))]
    exact hqid_val
  · rw [runTicks_snoc 9 st1 (now + 1)]
    have hmem : hash_of (st.quizCnt + 1) ∈
        (runTicks st1 (now + 1) 9).quizToDelete (hash_of (now + 1 + 9)) := by
      rw [runTicks_quizToDelete]
      have h10 : hash_of (now + 1 + 9) = hash_of (10 + now) := by
        simp only [hash_of]; omega
      rw [h10, hqd, if_pos rfl]
      exact List.mem_append_right _ (by simp)
    show (check_and_delete_quiz (runTicks st1 (now + 1) 9)
        (now + 1 + 9)).quizzes (hash_of (st.quizCnt + 1)) = none
    rw [check_and_delete_quizzes, if_pos hmem]

set_option maxHeartbeats 2000000 in
/-- C7 witness: the quiz created at block 100 from genesis is deleted by the
hook run of block 110. -/
theorem c7_scheduled_deletion_witness :
    (runTicks (step (initState (fun _ => 0) 0)
        (Op.addQuiz 100 7 q0 q0 q0 q0 q0 sol1 0)) 101 10).quizzes
      (hash_of 1) = none :=
  (c7_scheduled_deletion 100 (initState (fun _ => 0) 0) 7 q0 q0 q0 q0 q0 sol1 0
    (by decide) (fun u hu1 hu2 => by simp [initState])).2.2

/-- C8: `find_score` equals the count of the five positional slots on which
submission and key agree (hence lies in `[0,5]`), scores any solution
against itself as 5, is symmetric, and a submission differing from the key
in exactly `k` slots scores `5 - k` (with `diffCount` the number of
disagreeing slots, `agreeCount + diffCount = 5`). -/
theorem c8_find_score_properties :
    (∀ a b : Solution, find_score a b = agreeCount a b) ∧
    (∀ a b : Solution, find_score a b ≤ 5) ∧
    (∀ s : Solution, find_score s s = 5) ∧
    (∀ a b : Solution, find_score a b = find_score b a) ∧
    (∀ a b : Solution, agreeCount a b + diffCount a b = 5) ∧
    (∀ a b : Solution, find_score a b = 5 - diffCount a b) := by
  refine ⟨find_score_eq_agreeCount, find_score_le_five, ?_, ?_,
    agreeCount_add_diffCount, ?_⟩
  · intro s; simp [find_score]
  · intro a b
    rw [find_score_eq_agreeCount, find_score_eq_agreeCount, agreeCount_comm]
  · intro a b
    have h1 := find_score_eq_agreeCount a b
    have h2 := agreeCount_add_diffCount a b
    omega

/-- C9: in every state reachable through the dispatchables, every stored
user rating lies in `[0,5]`, and hence the `u8` blend
`user_rating * 5 + current_score` computed inside the rating update (whose
score argument is a `find_score` result) never exceeds 30, so it cannot
wrap at 256. -/
theorem c9_rating_invariant (st : State) (h : Reachable st) :
    (∀ a, st.userRating a ≤ 5) ∧
    (∀ (a : AccountId) (sub key : Solution),
      st.userRating a * 5 + find_score sub key ≤ 30) := by
  refine ⟨reachable_userRating_le st h, fun a sub key => ?_⟩
  have h1 := reachable_userRating_le st h a
  have h2 := find_score_le_five sub key
  omega

/-- C9 witness: the invariant applied at the genesis state. -/
theorem c9_rating_invariant_witness :
    (initState (fun _ => 0) 0).userRating 3 ≤ 5 :=
  (c9_rating_invariant (initState (fun _ => 0) 0)
    (Reachable.init (fun _ => 0) 0)).1 3

/-- C10: `attempt_quiz` performs no range validation on the submitted
solution: for every submission whatsoever (slots 0 or above 4 included),
once the quiz exists, the sender is not the owner, the gate is satisfied
and the transfer succeeds, the call commits the scored result, the score
being the positional comparison `find_score` of the raw submission against
the stored key; and a submission slot equal to 0 matches a stored
(unvalidated) answer slot equal to 0 and earns a point. -/
theorem c10_no_submission_validation :
    (∀ (tpq : Nat) (st : State) (sender : AccountId) (qc : Nat)
        (sub : Solution) (quiz : Quiz) (sol : Solution) (st1 : State),
      st.quizzes (hash_of qc) = some quiz →
      ¬ sender = quiz.owner →
      st.userRating sender ≥ (quiz.rating + 255) % 256 →
      st.solutions (hash_of qc) = some sol →
      transfer_tokens_to_owner st sender quiz.owner
          ((5 - find_score sub sol) * tpq) = Except.ok st1 →
      ∃ st2, attempt_quiz tpq st sender qc sub = Except.ok st2 ∧
        st2.events = st.events ++ [Event.QuizScore qc sender (find_score sub sol)] ∧
        st2.userRating sender =
          (st.userRating sender * 5 + find_score sub sol) % 256 /
            (if st.userRating sender = 0 then 1 else 6)) ∧
    (∀ sub key : Solution, sub.answer5 = 0 → key.answer5 = 0 →
      1 ≤ find_score sub key) := by
  constructor
  · intro tpq st sender qc sub quiz sol st1 h1 h2 h3 h4 h5
    refine ⟨deposit_event
        (update_rating st1 sender (find_score sub sol) (st.userRating sender))
        (Event.QuizScore qc sender (find_score sub sol)), ?_, ?_, ?_⟩
    · simp only [attempt_quiz, h1]
      rw [if_neg h2, if_pos h3]
      simp only [h4, h5]
    · show (update_rating st1 sender (find_score sub sol)
          (st.userRating sender)).events ++ [_] = _
      have hev : (update_rating st1 sender (find_score sub sol)
          (st.userRating sender)).events = st1.events := rfl
      rw [hev, (transfer_ok_fields st sender quiz.owner _ st1 h5).2.2.2.2]
    · show (update_rating st1 sender (find_score sub sol)
          (st.userRating sender)).userRating sender = _
      rw [update_rating_value, if_pos rfl]
  · intro sub key h5a h5b
    simp only [find_score]
    split_ifs <;> omega

/-- C10 witness: an attempt whose fifth submission slot is 9 (out of the
documented range) is accepted and scored positionally (score 4 of 5,
first rating stored as 4). -/
theorem c10_no_submission_validation_witness :
    ∃ st2, attempt_quiz 1 (step (initState (fun _ => 100) 0)
        (Op.addQuiz 100 5 q0 q0 q0 q0 q0 sol1 1)) 2 1
      { answer1 := 1, answer2 := 1, answer3 := 1, answer4 := 1, answer5 := 9 } =
        Except.ok st2 ∧
      st2.events = (step (initState (fun _ => 100) 0)
          (Op.addQuiz 100 5 q0 q0 q0 q0 q0 sol1 1)).events ++
        [Event.QuizScore 1 2 (find_score
          { answer1 := 1, answer2 := 1, answer3 := 1, answer4 := 1, answer5 := 9 }
          sol1)] ∧
      st2.userRating 2 =
        ((step (initState (fun _ => 100) 0)
            (Op.addQuiz 100 5 q0 q0 q0 q0 q0 sol1 1)).userRating 2 * 5 +
          find_score
            { answer1 := 1, answer2 := 1, answer3 := 1, answer4 := 1, answer5 := 9 }
            sol1) % 256 /
          (if (step (initState (fun _ => 100) 0)
              (Op.addQuiz 100 5 q0 q0 q0 q0 q0 sol1 1)).userRating 2 = 0
            then 1 else 6) :=
  c10_no_submission_validation.1 1
    (step (initState (fun _ => 100) 0) (Op.addQuiz 100 5 q0 q0 q0 q0 q0 sol1 1))
    2 1 { answer1 := 1, answer2 := 1, answer3 := 1, answer4 := 1, answer5 := 9 }
    { owner := 5, questions := [q0, q0, q0, q0, q0], rating := 1 } sol1 _
    rfl (by decide) (by decide) rfl rfl

end SubstrateQuiz
